import Mathlib

/-!
Verification of the FindPeople scraper (`find.py`).

The file shallowly embeds the program: HTML trees are the inductive `Node`
(elements carry tag, class list and children, matching what the extractor
selectors can observe), BeautifulSoup-style `find_all` is a recursive
pre-order search over descendants, the record extractors and `parse_emails`
are translated line by line (Python `AttributeError` crashes become
`Except.error`), the query client `do_request` takes the HTTP collaborator
as a function argument and additionally returns the list of POSTs it
performed, and the driver loop threads those together.  The rate-limit
logic of `main` is modelled by `pacerStep`/`pacerRun` over an abstract
rational-valued clock in which `time.sleep d` advances the clock by at
least `d` and time between observations only grows.
-/

/-- Python whitespace (the characters `str.split()` / `str.strip()` treat as
separators for the ASCII inputs this tool handles). -/
def isPySpace (c : Char) : Bool :=
  c == ' ' || c == '\t' || c == '\n' || c == '\r' || c == '\x0b' || c == '\x0c'

/-- Python `str.strip()`: drop leading and trailing whitespace. -/
def pyStrip (s : String) : String :=
  String.mk (((s.toList.dropWhile isPySpace).reverse.dropWhile isPySpace).reverse)

/-- Helper for `pySplit`: accumulate the current (reversed) token. -/
def pySplitAux : List Char → List Char → List String
  | [], cur => if cur = [] then [] else [String.mk cur.reverse]
  | c :: rest, cur =>
    if isPySpace c then
      if cur = [] then pySplitAux rest [] else String.mk cur.reverse :: pySplitAux rest []
    else pySplitAux rest (c :: cur)

/-- Python `str.split()` with no argument: split on runs of whitespace,
discarding empty tokens. -/
def pySplit (s : String) : List String :=
  pySplitAux s.toList []

/-- The first component of Python `str.partition(sep)` for a one-character
separator: the text before the first occurrence (the whole string if the
separator does not occur). -/
def partitionPre (sep : Char) : List Char → List Char
  | [] => []
  | c :: rest => if c = sep then [] else c :: partitionPre sep rest

/-- Python `str.split(sep)` for a one-character separator: the list of
segments between occurrences (`"".split(sep) = [""]`). -/
def pySplitSep (sep : Char) : List Char → List (List Char)
  | [] => [[]]
  | c :: rest =>
    if c = sep then [] :: pySplitSep sep rest
    else
      match pySplitSep sep rest with
      | [] => [[c]]
      | seg :: segs => (c :: seg) :: segs

/-- `s.split(sep)[0]` as a string. -/
def pySplitHead (sep : Char) (s : String) : String :=
  String.mk ((pySplitSep sep s.toList).headD [])

/-- An HTML node as the extractor can observe it: a text node, or an element
with a tag name, the (multi-valued) `class` attribute and child nodes. -/
inductive Node where
  | text (s : String)
  | elem (tag : String) (classes : List String) (children : List Node)

mutual

/-- Pre-order search of a node and its descendants for elements with the
given tag whose class attribute contains `cls` (BeautifulSoup's
`find_all(tag, cls)` match rule). -/
def findAllIn (tag cls : String) (n : Node) : List Node :=
  match n with
  | .text _ => []
  | .elem t cs ch =>
    (if t = tag && cs.contains cls then [Node.elem t cs ch] else []) ++ findAllL tag cls ch

/-- `findAllIn` mapped over a list of siblings, in document order. -/
def findAllL (tag cls : String) (l : List Node) : List Node :=
  match l with
  | [] => []
  | n :: rest => findAllIn tag cls n ++ findAllL tag cls rest

end

/-- `node.find_all(tag, cls)`: all matching descendant elements of `n`
(excluding `n` itself), in document order. -/
def find_all (tag cls : String) (n : Node) : List Node :=
  match n with
  | .text _ => []
  | .elem _ _ ch => findAllL tag cls ch

/-- `tag.contents` for an element (its children).  `find_all` only returns
elements, so the text case is never hit where this is used. -/
def contentsOf : Node → List Node
  | .text _ => []
  | .elem _ _ ch => ch

/-- Python truthiness of a node: a `NavigableString` is truthy iff
non-empty; a `Tag` is always truthy. -/
def nodeBool : Node → Bool
  | .text s => s ≠ ""
  | .elem _ _ _ => true

/-- Is the node an element? -/
def isElemNode : Node → Bool
  | .text _ => false
  | .elem _ _ _ => true

/-- Is the node a text node? -/
def isTextNode : Node → Bool
  | .text _ => true
  | .elem _ _ _ => false

/-- `parse_record_email` from `find.py`: first `td.record-data-email` cell,
its first child as the link, the link's first child as the email node.
Taking `.contents` of a text node raises `AttributeError` in Python, which
is modelled as `Except.error`. -/
def parse_record_email (record : Node) : Except String (Option Node) :=
  match find_all "td" "record-data-email" record with
  | [] => .ok none
  | email_tag :: _ =>
    match contentsOf email_tag with
    | [] => .ok none
    | link_tag :: _ =>
      match link_tag with
      | .text _ => .error "AttributeError: NavigableString has no attribute contents"
      | .elem _ _ link_children =>
        match link_children with
        | [] => .ok none
        | email :: _ => .ok (some email)

/-- `parse_record_name` from `find.py`: first `th.record-data-name` cell,
first `span.results-name` inside it, first child's text, stripped.
Calling `.strip()` on a `Tag` raises `AttributeError`. -/
def parse_record_name (record : Node) : Except String (Option String) :=
  match find_all "th" "record-data-name" record with
  | [] => .ok none
  | name_tag :: _ =>
    match find_all "span" "results-name" name_tag with
    | [] => .ok none
    | name_span :: _ =>
      match contentsOf name_span with
      | [] => .ok none
      | Node.text s :: _ => .ok (some (pyStrip s))
      | Node.elem _ _ _ :: _ => .error "AttributeError: Tag has no attribute strip"

/-- `parse_record_major` from `find.py`: first child of the first
`td.record-data-major` cell, verbatim. -/
def parse_record_major (record : Node) : Option Node :=
  match find_all "td" "record-data-major" record with
  | [] => none
  | major_tag :: _ =>
    match contentsOf major_tag with
    | [] => none
    | c :: _ => some c

/-- `parse_record_org` from `find.py`: first child of the first
`td.record-data-org` cell, verbatim. -/
def parse_record_org (record : Node) : Option Node :=
  match find_all "td" "record-data-org" record with
  | [] => none
  | org_tag :: _ =>
    match contentsOf org_tag with
    | [] => none
    | c :: _ => some c

/-- One directory match, as `find.py`'s `ContactInfo` namedtuple.  `major`
and `org` hold the raw child node the extractor found (the source stores
the BeautifulSoup node there). -/
structure ContactInfo where
  name : Option String
  email : String
  dotname : String
  major : Option Node
  org : Option Node

/-- The body of the `for record in person_records` loop of `parse_emails`:
extract email, name, major and org (in that order, so a crash in an earlier
extractor aborts the whole parse), and emit a record iff the email is
truthy.  `email.partition` on a `Tag` raises `AttributeError`. -/
def rowRecord (record : Node) : Except String (Option ContactInfo) := do
  let email ← parse_record_email record
  let name ← parse_record_name record
  let major := parse_record_major record
  let org := parse_record_org record
  match email with
  | none => return none
  | some e =>
    if nodeBool e then
      match e with
      | .text s =>
        return some ⟨name, s, String.mk (partitionPre '@' s.toList), major, org⟩
      | .elem _ _ _ => Except.error "AttributeError: Tag has no attribute partition"
    else
      return none

/-- The loop of `parse_emails` over the matched rows, accumulating records
in row order. -/
def parseRows : List Node → Except String (List ContactInfo)
  | [] => .ok []
  | r :: rest => do
    let mc ← rowRecord r
    let tail ← parseRows rest
    match mc with
    | some c => return c :: tail
    | none => return tail

/-- `parse_emails` from `find.py`, applied to the already-built document
tree (tree construction from raw HTML is delegated to BeautifulSoup):
select all `tr.record-data` rows and extract a record from each. -/
def parse_emails (doc : Node) : Except String (List ContactInfo) :=
  parseRows (find_all "tr" "record-data" doc)

/-- Python `"{}".format` of an optional string (`None` prints as `None`). -/
def formatPyOpt : Option String → String
  | none => "None"
  | some s => s

/-- Serialization of the class attribute, used when a stored node is an
element and gets formatted. -/
def classAttr : List String → String
  | [] => ""
  | cs => " class=\"" ++ String.intercalate " " cs ++ "\""

mutual

/-- Python `str` of a stored node: a `NavigableString` formats as its text;
a `Tag` serializes as HTML (our `Node` only carries the class attribute). -/
def nodeStr : Node → String
  | .text s => s
  | .elem t cs ch => "<" ++ t ++ classAttr cs ++ ">" ++ nodeStrL ch ++ "</" ++ t ++ ">"

/-- Serialization of a list of children. -/
def nodeStrL : List Node → String
  | [] => ""
  | n :: rest => nodeStr n ++ nodeStrL rest

end

/-- Python `"{}".format` of an optional node. -/
def formatPyNode : Option Node → String
  | none => "None"
  | some n => nodeStr n

/-- Python truthiness of an optional node (`None` is falsy). -/
def optNodeBool : Option Node → Bool
  | none => false
  | some n => nodeBool n

/-- `contact_to_str` from `find.py`: name line (with the trailing space the
format string has), indented email line, then major and org lines only when
those fields are truthy. -/
def contact_to_str (contact : ContactInfo) : String :=
  let result := formatPyOpt contact.name ++ " \n\temail: " ++ contact.email
  let result :=
    if optNodeBool contact.major then result ++ "\n\tmajor: " ++ formatPyNode contact.major
    else result
  if optNodeBool contact.org then result ++ "\n\torg: " ++ formatPyNode contact.org
  else result

/-- The record-writing loop of `main` (both modes): for each record write
`contact_to_str` then a newline. -/
def writeLoop : List ContactInfo → String
  | [] => ""
  | c :: rest => contact_to_str c ++ "\n" ++ writeLoop rest

/-- The `ALL` category constant of `find.py`. -/
def ALL : String := "all"

/-- The `STUDENT` category constant of `find.py`. -/
def STUDENT : String := "student"

/-- The `EMPLOYEE` category constant of `find.py`. -/
def EMPLOYEE : String := "employee"

/-- What the HTTP collaborator returns: status code and body. -/
structure HttpResponse where
  status_code : Nat
  content : String

/-- The form-encoded POST body `do_request` builds. -/
structure FormData where
  filter : String
  firstname : String
  lastname : String
  name_n : String

/-- The two exception classes of `find.py`.  `requestFailure` carries the
offending status code (the source interpolates it into the message). -/
inductive ReqError where
  | invalidRequest (msg : String)
  | requestFailure (status : Nat)

/-- `do_request` from `find.py`.  The HTTP collaborator (`requests.post`
against the fixed endpoint) is the function argument `net`; the second
component of the result lists the POSTs actually performed, so "before any
network I/O" is observable.  In the source `dot_name` defaults to `""` and
`category` to `ALL`; callers here pass all arguments explicitly. -/
def do_request (net : FormData → HttpResponse)
    (firstname lastname dot_name category : String) :
    Except ReqError String × List FormData :=
  if category ∉ ([ALL, STUDENT, EMPLOYEE] : List String) then
    (.error (.invalidRequest "invalid category"), [])
  else
    let form_data : FormData := ⟨category, firstname, lastname, dot_name⟩
    let resp := net form_data
    if resp.status_code ≠ 200 then
      (.error (.requestFailure resp.status_code), [form_data])
    else
      (.ok resp.content, [form_data])

/-- Tokenization shared by the `--name` and `--batch` paths of `main`:
one token gives a surname-only pair, several give (first token, last
token), and an empty token list gives nothing (the `--name` path then
crashes with `IndexError`, the batch path skips the line). -/
def tokenizeName (parts : List String) : Option (String × String) :=
  match parts with
  | [] => none
  | [t] => some ("", t)
  | t :: t2 :: rest => some (t, (t2 :: rest).getLast (List.cons_ne_nil t2 rest))

/-- The `--name` splitting rule of `main` (lines 172-176). -/
def parseName (s : String) : Option (String × String) :=
  tokenizeName (pySplit s)

/-- The `--batch` loop of `main` (lines 178-184): strip and split each
line; lines with no tokens contribute nothing. -/
def batchNames (lines : List String) : List (String × String) :=
  lines.filterMap (fun line => tokenizeName (pySplit (pyStrip line)))

/-- The parsed CLI arguments `main` consumes in online mode. -/
structure Args where
  name : Option String
  type : String
  batch : Option (List String)
  ratelimit : ℚ

/-- Building the `names` list in `main` (lines 168-184): the `--name` pair
first (an empty `--name` is falsy and skipped; a whitespace-only one hits
`parts[0]` on an empty list, an `IndexError`), then the batch pairs in file
order. -/
def resolveNames (args : Args) : Except String (List (String × String)) :=
  let fromName : Except String (List (String × String)) :=
    match args.name with
    | none => .ok []
    | some s =>
      if s = "" then .ok []
      else
        match parseName s with
        | some p => .ok [p]
        | none => .error "IndexError: list index out of range"
  match fromName with
  | .error e => .error e
  | .ok l =>
    match args.batch with
    | none => .ok l
    | some lines => .ok (l ++ batchNames lines)

/-- The external collaborators of the online loop: the HTTP client and
BeautifulSoup's tree construction from the response body. -/
structure Env where
  net : FormData → HttpResponse
  soup : String → Node

/-- An unhandled exception escaping the online loop: one of `do_request`'s
errors, or an `AttributeError` from parsing. -/
inductive RunError where
  | req (e : ReqError)
  | attr (msg : String)

/-- Python `str` of a name pair, as `"{}".format(name)` renders it. -/
def tupleRepr (n : String × String) : String :=
  "(" ++ "'" ++ n.1 ++ "'" ++ ", " ++ "'" ++ n.2 ++ "'" ++ ")"

/-- `err` from `find.py`: the message written to stderr, with a newline
appended when missing. -/
def errText (msg : String) : String :=
  if msg ≠ "" ∧ msg.back ≠ '\n' then msg ++ "\n" else msg

/-- What one run of `main`'s online loop produces: the outcome, the POSTs
performed, the text written to the output destination and the text written
to stderr. -/
structure RunResult where
  result : Except RunError Unit
  posts : List FormData
  output : String
  errors : String

/-- The online loop of `main` (lines 191-203), minus the pacing (modelled
separately by `pacerRun`, which does not affect which requests are made):
`do_request(name[0], name[1])` — the source passes only two arguments, so
the defaults `dot_name=""` and `category=ALL` apply — then parse, write the
records, and emit a diagnostic when a name matched nothing.  Any exception
aborts the remaining names. -/
def mainLoop (env : Env) : List (String × String) → RunResult
  | [] => ⟨.ok (), [], "", ""⟩
  | name :: rest =>
    let (r, tr) := do_request env.net name.1 name.2 "" ALL
    match r with
    | .error e => ⟨.error (.req e), tr, "", ""⟩
    | .ok data =>
      match parse_emails (env.soup data) with
      | .error e => ⟨.error (.attr e), tr, "", ""⟩
      | .ok info =>
        let res := mainLoop env rest
        ⟨res.result, tr ++ res.posts,
         writeLoop info ++ res.output,
         (if info.isEmpty then errText ("Failed to find record for name: " ++ tupleRepr name)
          else "") ++ res.errors⟩

/-- The pacing state of `main`'s loop: the current clock reading and the
`start_time` variable. -/
structure PacerState where
  clock : ℚ
  start : ℚ

/-- One iteration of the pacing logic (lines 192-195) over an abstract
clock: `preGap ≥ 0` is the time that passed since the previous `start_time`
sample when `time.time()` is read for the delay computation (it includes
the previous request and parse latency), the sleep advances the clock by
the requested delay, and `postGap ≥ 0` is the time between the end of the
sleep and the `start_time = time.time()` sample.  Returns the new state and
the amount slept. -/
def pacerStep (ratelimit : ℚ) (st : PacerState) (preGap postGap : ℚ) :
    PacerState × ℚ :=
  let tNow := st.clock + preGap
  let delay := st.start + ratelimit - tNow
  let slept := if delay > 0 then delay else 0
  let startNew := tNow + slept + postGap
  (⟨startNew, startNew⟩, slept)

/-- The pacing of a whole run: one `pacerStep` per query, returning each
query's `start_time` sample and the time slept before it. -/
def pacerRun (ratelimit : ℚ) (st : PacerState) : List (ℚ × ℚ) → List (ℚ × ℚ)
  | [] => []
  | g :: rest =>
    let step := pacerStep ratelimit st g.1 g.2
    (step.1.start, step.2) :: pacerRun ratelimit step.1 rest

/-- The state after line 186, `start_time = time.time() - args.ratelimit`,
when the clock reads `t0`. -/
def pacerInit (ratelimit t0 : ℚ) : PacerState :=
  ⟨t0, t0 - ratelimit⟩

/-- The claim-side reading of a row whose email is missing: the email cell
is absent, or the cell has no nested link element (no element child at
all), or the link (the cell's first child, which is what the code treats as
the link) has no text content. -/
def emailMissing (r : Node) : Prop :=
  find_all "td" "record-data-email" r = [] ∨
  (∃ t rest, find_all "td" "record-data-email" r = t :: rest ∧
    ∀ n ∈ contentsOf t, isElemNode n = false) ∨
  (∃ t rest tg cs lch rest2, find_all "td" "record-data-email" r = t :: rest ∧
    contentsOf t = Node.elem tg cs lch :: rest2 ∧
    ∀ n ∈ lch, isTextNode n = false)

/-- A result row as the directory page carries it: name, email link, major,
no org (the end-to-end example of the spec). -/
def sampleRow : Node := .elem "tr" ["record-data"] [
  .elem "th" ["record-data-name"] [.elem "span" ["results-name"] [.text " Jane Doe "]],
  .elem "td" ["record-data-email"] [.elem "a" [] [.text "jdoe@example.edu"]],
  .elem "td" ["record-data-major"] [.text "Computer Science"]]

/-- A document containing just `sampleRow`. -/
def sampleDoc : Node :=
  .elem "html" [] [.elem "body" [] [.elem "table" [] [sampleRow]]]

/-- The record `parse_emails` extracts from `sampleDoc`. -/
def janeContact : ContactInfo :=
  ⟨some "Jane Doe", "jdoe@example.edu", "jdoe", some (.text "Computer Science"), none⟩

/-- A second record with neither major nor org, used to inspect the
separator between consecutive formatted records. -/
def bobContact : ContactInfo :=
  ⟨some "Bob Cat", "bcat@example.edu", "bcat", none, none⟩

/-- A row with a name cell but no email cell at all. -/
def rowNoEmail : Node := .elem "tr" ["record-data"] [
  .elem "th" ["record-data-name"] [.elem "span" ["results-name"] [.text "No Mail"]]]

/-- A row with exactly one cell per field selector. -/
def rowOnce : Node := .elem "tr" ["record-data"] [
  .elem "th" ["record-data-name"] [.elem "span" ["results-name"] [.text " Jane Doe "]],
  .elem "td" ["record-data-email"] [.elem "a" [] [.text "jdoe@example.edu"]],
  .elem "td" ["record-data-major"] [.text "Computer Science"],
  .elem "td" ["record-data-org"] [.text "Registrar"]]

/-- `rowOnce` with a second, different cell appended for every field
selector; the first matching cells are unchanged. -/
def rowTwice : Node := .elem "tr" ["record-data"] [
  .elem "th" ["record-data-name"] [.elem "span" ["results-name"] [.text " Jane Doe "]],
  .elem "td" ["record-data-email"] [.elem "a" [] [.text "jdoe@example.edu"]],
  .elem "td" ["record-data-major"] [.text "Computer Science"],
  .elem "td" ["record-data-org"] [.text "Registrar"],
  .elem "th" ["record-data-name"] [.elem "span" ["results-name"] [.text "Other Name"]],
  .elem "td" ["record-data-email"] [.elem "a" [] [.text "other@example.edu"]],
  .elem "td" ["record-data-major"] [.text "Other Major"],
  .elem "td" ["record-data-org"] [.text "Other Org"]]

/-- An HTTP collaborator that always answers 200 with a fixed body. -/
def net200 : FormData → HttpResponse := fun _ => ⟨200, "page"⟩

/-- An HTTP collaborator that always answers 500. -/
def net500 : FormData → HttpResponse := fun _ => ⟨500, ""⟩

/-- An environment whose responses always parse to `sampleDoc`. -/
def env200 : Env := ⟨net200, fun _ => sampleDoc⟩

/-- The record extracted from `rowOnce`. -/
def rowOnceContact : ContactInfo :=
  ⟨some "Jane Doe", "jdoe@example.edu", "jdoe",
    some (.text "Computer Science"), some (.text "Registrar")⟩

/-- The arguments of the run `./find.py --name "Jane Doe" --type student`:
`args.type` is `student`, batch and file absent, default ratelimit. -/
def bugArgs : Args := ⟨some "Jane Doe", STUDENT, none, 5⟩

/-- A record with an org but no major, to exercise the org-only branch of
the formatter. -/
def carlaContact : ContactInfo :=
  ⟨some "Carla Fox", "cfox@example.edu", "cfox", none, some (.text "Library")⟩

/-- A row carrying only an email cell: name, major and org lookups all
fail. -/
def rowEmailOnly : Node := .elem "tr" ["record-data"] [
  .elem "td" ["record-data-email"] [.elem "a" [] [.text "solo@example.edu"]]]

/-- The record `rowRecord` emits for `rowEmailOnly`: every optional field
is null. -/
def soloContact : ContactInfo :=
  ⟨none, "solo@example.edu", "solo", none, none⟩

theorem pySplitSep_ne_nil (sep : Char) : ∀ l : List Char, pySplitSep sep l ≠ [] := by
  intro l
  induction l with
  | nil => simp [pySplitSep]
  | cons c rest ih =>
    simp only [pySplitSep]
    split
    · simp
    · cases h : pySplitSep sep rest with
      | nil => exact absurd h ih
      | cons seg segs => simp

theorem partitionPre_eq_splitHead (sep : Char) :
    ∀ l : List Char, partitionPre sep l = (pySplitSep sep l).headD [] := by
  intro l
  induction l with
  | nil => rfl
  | cons c rest ih =>
    simp only [partitionPre, pySplitSep]
    split
    · simp
    · cases h : pySplitSep sep rest with
      | nil => exact absurd h (pySplitSep_ne_nil sep rest)
      | cons seg segs => rw [h] at ih; simpa using ih

theorem partitionPre_of_not_mem {sep : Char} :
    ∀ {l : List Char}, sep ∉ l → partitionPre sep l = l := by
  intro l
  induction l with
  | nil => intro _; rfl
  | cons c rest ih =>
    intro h
    simp only [partitionPre]
    rw [if_neg, ih (fun hm => h (List.mem_cons_of_mem _ hm))]
    intro he; exact h (he ▸ List.mem_cons_self c rest)

theorem rowRecord_ok_some {r : Node} {c : ContactInfo}
    (h : rowRecord r = .ok (some c)) :
    parse_record_email r = .ok (some (Node.text c.email)) ∧
    c.email ≠ "" ∧
    c.dotname = String.mk (partitionPre '@' c.email.toList) ∧
    parse_record_name r = .ok c.name ∧
    c.major = parse_record_major r ∧
    c.org = parse_record_org r := by
  obtain ⟨cn, ce, cd, cm, co⟩ := c
  unfold rowRecord at h
  cases he : parse_record_email r with
  | error e => rw [he] at h; simp [Bind.bind, Except.bind] at h
  | ok eo =>
    rw [he] at h
    cases hn : parse_record_name r with
    | error e => rw [hn] at h; simp [Bind.bind, Except.bind] at h
    | ok nm =>
      rw [hn] at h
      simp only [Bind.bind, Except.bind] at h
      cases eo with
      | none => simp [pure, Except.pure] at h
      | some e =>
        cases e with
        | elem t cs ch => simp [nodeBool, pure, Except.pure] at h
        | text s =>
          by_cases hs : s = ""
          · subst hs; simp [nodeBool, pure, Except.pure] at h
          · simp [nodeBool, hs, pure, Except.pure] at h
            obtain ⟨h1, h2, h3, h4, h5⟩ := h
            refine ⟨?_, ?_, ?_, ?_, ?_, ?_⟩ <;> simp_all

theorem parseRows_mem : ∀ (rows : List Node) (L : List ContactInfo),
    parseRows rows = .ok L → ∀ c ∈ L, ∃ r ∈ rows, rowRecord r = .ok (some c) := by
  intro rows
  induction rows with
  | nil =>
    intro L h c hc
    simp only [parseRows] at h
    obtain rfl : ([] : List ContactInfo) = L := by simpa using h
    simp at hc
  | cons r rest ih =>
    intro L h c hc
    simp only [parseRows, Bind.bind, Except.bind] at h
    cases hr : rowRecord r with
    | error e => rw [hr] at h; simp at h
    | ok mc =>
      rw [hr] at h
      cases ht : parseRows rest with
      | error e => rw [ht] at h; simp at h
      | ok tail =>
        rw [ht] at h
        cases mc with
        | none =>
          simp only [pure, Except.pure, Except.ok.injEq] at h
          subst h
          obtain ⟨r2, hr2, h2⟩ := ih tail ht c hc
          exact ⟨r2, List.mem_cons_of_mem _ hr2, h2⟩
        | some c0 =>
          simp only [pure, Except.pure, Except.ok.injEq] at h
          subst h
          rcases List.mem_cons.mp hc with rfl | hc2
          · exact ⟨r, List.mem_cons_self _ _, hr⟩
          · obtain ⟨r2, hr2, h2⟩ := ih tail ht c hc2
            exact ⟨r2, List.mem_cons_of_mem _ hr2, h2⟩

theorem emailMissing_no_text {r : Node} (hm : emailMissing r) :
    ∀ s : String, parse_record_email r ≠ .ok (some (Node.text s)) := by
  intro s h
  unfold parse_record_email at h
  rcases hm with h1 | ⟨t, rest, ht, hall⟩ | ⟨t, rest, tg, cs, lch, rest2, ht, hc, hall⟩
  · rw [h1] at h; simp at h
  · rw [ht] at h
    cases hcon : contentsOf t with
    | nil => simp [hcon] at h
    | cons l ls =>
      have hl := hall l (by rw [hcon]; exact List.mem_cons_self _ _)
      cases l with
      | text s2 => simp [hcon] at h
      | elem tg2 cs2 ch2 => simp [isElemNode] at hl
  · rw [ht] at h
    simp only [hc] at h
    cases lch with
    | nil => simp at h
    | cons e es =>
      have he := hall e (List.mem_cons_self _ _)
      cases e with
      | text s2 => simp [isTextNode] at he
      | elem a b ch => simp at h

/-- Claim C2: every ContactInfo emitted by parse_emails has dotname equal to
the prefix of email before the first at sign, i.e. email.split at-sign,
component zero; when email has no at sign, dotname is the whole email. -/
theorem claim_C2 : ∀ (doc : Node) (L : List ContactInfo), parse_emails doc = .ok L →
    ∀ c ∈ L, c.dotname = pySplitHead '@' c.email ∧
      ('@' ∉ c.email.toList → c.dotname = c.email) := by
  intro doc L h c hc
  unfold parse_emails at h
  obtain ⟨r, _, hr⟩ := parseRows_mem _ _ h c hc
  obtain ⟨_, _, hdot, _, _, _⟩ := rowRecord_ok_some hr
  refine ⟨?_, ?_⟩
  · rw [hdot, pySplitHead, partitionPre_eq_splitHead]
  · intro hni
    rw [hdot, partitionPre_of_not_mem hni]
    rfl

theorem claim_C2_witness :
    janeContact.dotname = pySplitHead '@' janeContact.email ∧
    ('@' ∉ janeContact.email.toList → janeContact.dotname = janeContact.email) :=
  claim_C2 sampleDoc [janeContact] rfl janeContact (by simp)

/-- Claim C3: a row whose email cell is absent, has no nested link element,
or whose link has no text content never yields a ContactInfo; every record
parse_emails emits comes from some matched row; and every emitted record
has a non-empty email. -/
theorem claim_C3 :
    (∀ r : Node, emailMissing r → ∀ c : ContactInfo, rowRecord r ≠ .ok (some c)) ∧
    (∀ (doc : Node) (L : List ContactInfo), parse_emails doc = .ok L →
      ∀ c ∈ L, ∃ r ∈ find_all "tr" "record-data" doc, rowRecord r = .ok (some c)) ∧
    (∀ (doc : Node) (L : List ContactInfo), parse_emails doc = .ok L →
      ∀ c ∈ L, c.email ≠ "") := by
  refine ⟨?_, ?_, ?_⟩
  · intro r hm c h
    exact emailMissing_no_text hm c.email (rowRecord_ok_some h).1
  · intro doc L h c hc
    unfold parse_emails at h
    exact parseRows_mem _ _ h c hc
  · intro doc L h c hc
    unfold parse_emails at h
    obtain ⟨r, _, hr⟩ := parseRows_mem _ _ h c hc
    exact (rowRecord_ok_some hr).2.1

theorem claim_C3_witness :
    emailMissing rowNoEmail ∧
    rowRecord rowNoEmail ≠ .ok (some janeContact) ∧
    janeContact.email ≠ "" := by
  have hm : emailMissing rowNoEmail := Or.inl rfl
  exact ⟨hm, claim_C3.1 rowNoEmail hm janeContact,
    claim_C3.2.2 sampleDoc [janeContact] rfl janeContact (by simp)⟩

/-- Claim C4: do_request rejects a category outside the enumerated set with
InvalidRequest and performs no POST; with a valid category it performs
exactly one POST and fails with RequestFailure carrying the status code iff
the response status is not 200, returning the body otherwise. -/
theorem claim_C4 : ∀ (net : FormData → HttpResponse) (fn ln dn cat : String),
    (cat ∉ ([ALL, STUDENT, EMPLOYEE] : List String) →
      do_request net fn ln dn cat = (.error (.invalidRequest "invalid category"), [])) ∧
    (cat ∈ ([ALL, STUDENT, EMPLOYEE] : List String) →
      ((net ⟨cat, fn, ln, dn⟩).status_code ≠ 200 →
        do_request net fn ln dn cat =
          (.error (.requestFailure (net ⟨cat, fn, ln, dn⟩).status_code), [⟨cat, fn, ln, dn⟩])) ∧
      ((net ⟨cat, fn, ln, dn⟩).status_code = 200 →
        do_request net fn ln dn cat = (.ok (net ⟨cat, fn, ln, dn⟩).content, [⟨cat, fn, ln, dn⟩]))) ∧
    ((∃ m, (do_request net fn ln dn cat).1 = .error (.invalidRequest m)) ↔
      cat ∉ ([ALL, STUDENT, EMPLOYEE] : List String)) ∧
    ((∃ st, (do_request net fn ln dn cat).1 = .error (.requestFailure st)) ↔
      (cat ∈ ([ALL, STUDENT, EMPLOYEE] : List String) ∧
        (net ⟨cat, fn, ln, dn⟩).status_code ≠ 200)) := by
  intro net fn ln dn cat
  by_cases hm : cat ∈ ([ALL, STUDENT, EMPLOYEE] : List String)
  · by_cases h200 : (net ⟨cat, fn, ln, dn⟩).status_code = 200
    · simp [do_request, hm, h200]
    · simp [do_request, hm, h200]
  · simp [do_request, hm]

theorem claim_C4_witness :
    ("bogus" ∉ ([ALL, STUDENT, EMPLOYEE] : List String)) ∧
    do_request net200 "Jane" "Doe" "" "bogus" = (.error (.invalidRequest "invalid category"), []) ∧
    do_request net200 "Jane" "Doe" "" ALL = (.ok "page", [⟨ALL, "Jane", "Doe", ""⟩]) ∧
    do_request net500 "Jane" "Doe" "" ALL = (.error (.requestFailure 500), [⟨ALL, "Jane", "Doe", ""⟩]) := by
  refine ⟨by decide, (claim_C4 net200 "Jane" "Doe" "" "bogus").1 (by decide), ?_, ?_⟩
  · exact ((claim_C4 net200 "Jane" "Doe" "" ALL).2.1 (by decide)).2 rfl
  · exact ((claim_C4 net500 "Jane" "Doe" "" ALL).2.1 (by decide)).1 (by decide)

/-- Claim C10: each extractor depends only on the first cell matched by its
selector; rows agreeing on that first match extract identically, so later
matching cells never influence the result. -/
theorem claim_C10 : ∀ r1 r2 : Node,
    ((find_all "td" "record-data-email" r1).head? = (find_all "td" "record-data-email" r2).head? →
      parse_record_email r1 = parse_record_email r2) ∧
    ((find_all "th" "record-data-name" r1).head? = (find_all "th" "record-data-name" r2).head? →
      parse_record_name r1 = parse_record_name r2) ∧
    ((find_all "td" "record-data-major" r1).head? = (find_all "td" "record-data-major" r2).head? →
      parse_record_major r1 = parse_record_major r2) ∧
    ((find_all "td" "record-data-org" r1).head? = (find_all "td" "record-data-org" r2).head? →
      parse_record_org r1 = parse_record_org r2) := by
  intro r1 r2
  refine ⟨?_, ?_, ?_, ?_⟩ <;> intro h
  · unfold parse_record_email
    cases h1 : find_all "td" "record-data-email" r1 <;>
      cases h2 : find_all "td" "record-data-email" r2 <;>
      rw [h1, h2] at h <;> simp_all
  · unfold parse_record_name
    cases h1 : find_all "th" "record-data-name" r1 <;>
      cases h2 : find_all "th" "record-data-name" r2 <;>
      rw [h1, h2] at h <;> simp_all
  · unfold parse_record_major
    cases h1 : find_all "td" "record-data-major" r1 <;>
      cases h2 : find_all "td" "record-data-major" r2 <;>
      rw [h1, h2] at h <;> simp_all
  · unfold parse_record_org
    cases h1 : find_all "td" "record-data-org" r1 <;>
      cases h2 : find_all "td" "record-data-org" r2 <;>
      rw [h1, h2] at h <;> simp_all

theorem claim_C10_witness :
    (find_all "td" "record-data-email" rowOnce).head? =
      (find_all "td" "record-data-email" rowTwice).head? ∧
    parse_record_email rowOnce = parse_record_email rowTwice ∧
    parse_record_name rowOnce = parse_record_name rowTwice ∧
    parse_record_major rowOnce = parse_record_major rowTwice ∧
    parse_record_org rowOnce = parse_record_org rowTwice :=
  ⟨rfl, (claim_C10 rowOnce rowTwice).1 rfl, (claim_C10 rowOnce rowTwice).2.1 rfl,
    (claim_C10 rowOnce rowTwice).2.2.1 rfl, (claim_C10 rowOnce rowTwice).2.2.2 rfl⟩

/-- Claim C8: name is the first child's text trimmed; email, major and org
are the first child taken verbatim; every lookup-failure path of the name,
major and org extractors (selector matches nothing, nested span missing,
or the found cell empty) yields null for that field; and the fields of an
emitted record are exactly the outputs of the independent per-field
extractors, so a missing field never affects the others. -/
theorem claim_C8 :
    (∀ (r t sp : Node) (restT restS restC : List Node) (s : String),
      find_all "th" "record-data-name" r = t :: restT →
      find_all "span" "results-name" t = sp :: restS →
      contentsOf sp = Node.text s :: restC →
      parse_record_name r = .ok (some (pyStrip s))) ∧
    (∀ (r t c : Node) (rest rest2 : List Node),
      find_all "td" "record-data-major" r = t :: rest → contentsOf t = c :: rest2 →
      parse_record_major r = some c) ∧
    (∀ (r t c : Node) (rest rest2 : List Node),
      find_all "td" "record-data-org" r = t :: rest → contentsOf t = c :: rest2 →
      parse_record_org r = some c) ∧
    (∀ (r t e : Node) (tg : String) (tcs : List String) (es rest rest2 : List Node),
      find_all "td" "record-data-email" r = t :: rest →
      contentsOf t = Node.elem tg tcs (e :: es) :: rest2 →
      parse_record_email r = .ok (some e)) ∧
    (∀ r : Node,
      find_all "th" "record-data-name" r = [] ∨
      (∃ t rest, find_all "th" "record-data-name" r = t :: rest ∧
        find_all "span" "results-name" t = []) ∨
      (∃ t rest sp restS, find_all "th" "record-data-name" r = t :: rest ∧
        find_all "span" "results-name" t = sp :: restS ∧ contentsOf sp = []) →
      parse_record_name r = .ok none) ∧
    (∀ r : Node,
      find_all "td" "record-data-major" r = [] ∨
      (∃ t rest, find_all "td" "record-data-major" r = t :: rest ∧ contentsOf t = []) →
      parse_record_major r = none) ∧
    (∀ r : Node,
      find_all "td" "record-data-org" r = [] ∨
      (∃ t rest, find_all "td" "record-data-org" r = t :: rest ∧ contentsOf t = []) →
      parse_record_org r = none) ∧
    (∀ (r : Node) (c : ContactInfo), rowRecord r = .ok (some c) →
      parse_record_name r = .ok c.name ∧ c.major = parse_record_major r ∧
      c.org = parse_record_org r) := by
  refine ⟨?_, ?_, ?_, ?_, ?_, ?_, ?_, ?_⟩
  · intro r t sp restT restS restC s h1 h2 h3
    unfold parse_record_name
    rw [h1]
    simp only [h2, h3]
  · intro r t c rest rest2 h1 h2
    unfold parse_record_major
    rw [h1]
    simp only [h2]
  · intro r t c rest rest2 h1 h2
    unfold parse_record_org
    rw [h1]
    simp only [h2]
  · intro r t e tg tcs es rest rest2 h1 h2
    unfold parse_record_email
    rw [h1]
    simp only [h2]
  · intro r h
    rcases h with h1 | ⟨t, rest, h1, h2⟩ | ⟨t, rest, sp, restS, h1, h2, h3⟩
    · unfold parse_record_name
      rw [h1]
    · unfold parse_record_name
      rw [h1]
      simp only [h2]
    · unfold parse_record_name
      rw [h1]
      simp only [h2, h3]
  · intro r h
    rcases h with h1 | ⟨t, rest, h1, h2⟩
    · unfold parse_record_major
      rw [h1]
    · unfold parse_record_major
      rw [h1]
      simp only [h2]
  · intro r h
    rcases h with h1 | ⟨t, rest, h1, h2⟩
    · unfold parse_record_org
      rw [h1]
    · unfold parse_record_org
      rw [h1]
      simp only [h2]
  · intro r c h
    obtain ⟨_, _, _, h4, h5, h6⟩ := rowRecord_ok_some h
    exact ⟨h4, h5, h6⟩

theorem claim_C8_witness :
    parse_record_name rowOnce = .ok (some (pyStrip " Jane Doe ")) ∧
    parse_record_major rowOnce = some (Node.text "Computer Science") ∧
    parse_record_org rowOnce = some (Node.text "Registrar") ∧
    parse_record_email rowOnce = .ok (some (Node.text "jdoe@example.edu")) ∧
    parse_record_name rowEmailOnly = .ok none ∧
    parse_record_major rowEmailOnly = none ∧
    parse_record_org rowEmailOnly = none ∧
    (parse_record_name rowOnce = .ok rowOnceContact.name ∧
      rowOnceContact.major = parse_record_major rowOnce ∧
      rowOnceContact.org = parse_record_org rowOnce) ∧
    (parse_record_name rowEmailOnly = .ok soloContact.name ∧
      soloContact.major = parse_record_major rowEmailOnly ∧
      soloContact.org = parse_record_org rowEmailOnly) :=
  ⟨claim_C8.1 rowOnce
      (.elem "th" ["record-data-name"] [.elem "span" ["results-name"] [.text " Jane Doe "]])
      (.elem "span" ["results-name"] [.text " Jane Doe "]) [] [] [] " Jane Doe " rfl rfl rfl,
    claim_C8.2.1 rowOnce (.elem "td" ["record-data-major"] [.text "Computer Science"])
      (.text "Computer Science") [] [] rfl rfl,
    claim_C8.2.2.1 rowOnce (.elem "td" ["record-data-org"] [.text "Registrar"])
      (.text "Registrar") [] [] rfl rfl,
    claim_C8.2.2.2.1 rowOnce (.elem "td" ["record-data-email"] [.elem "a" [] [.text "jdoe@example.edu"]])
      (.text "jdoe@example.edu") "a" [] [] [] [] rfl rfl,
    claim_C8.2.2.2.2.1 rowEmailOnly (Or.inl rfl),
    claim_C8.2.2.2.2.2.1 rowEmailOnly (Or.inl rfl),
    claim_C8.2.2.2.2.2.2.1 rowEmailOnly (Or.inl rfl),
    claim_C8.2.2.2.2.2.2.2 rowOnce rowOnceContact rfl,
    claim_C8.2.2.2.2.2.2.2 rowEmailOnly soloContact rfl⟩

set_option maxRecDepth 8000 in
/-- Claim C7 (counterexample): writing two records produces a single
newline between them and no blank line anywhere ("\n\n" never occurs), so
records are not followed by a blank line separator. -/
theorem claim_C7_counterexample :
    writeLoop [janeContact, bobContact] =
      "Jane Doe \n\temail: jdoe@example.edu\n\tmajor: Computer Science\nBob Cat \n\temail: bcat@example.edu\n" ∧
    ¬ ('\n' :: '\n' :: []) <:+: (writeLoop [janeContact, bobContact]).toList := by
  refine ⟨rfl, ?_⟩
  show ¬ ('\n' :: '\n' :: []) <:+:
    ("Jane Doe \n\temail: jdoe@example.edu\n\tmajor: Computer Science\nBob Cat \n\temail: bcat@example.edu\n").toList
  decide

/-- Claim C7 (amended): per record the output is the name line, the
indented email line and, when present, the indented major and org lines
(all four presence combinations of major and org are covered); each record
is followed by a single newline (records are separated by a newline, not a
blank line); the Jane Doe example formats exactly as the spec's string. -/
theorem claim_C7 :
    contact_to_str janeContact =
      "Jane Doe \n\temail: jdoe@example.edu\n\tmajor: Computer Science" ∧
    writeLoop [janeContact] =
      "Jane Doe \n\temail: jdoe@example.edu\n\tmajor: Computer Science\n" ∧
    (∀ l : List ContactInfo,
      writeLoop l = (l.map fun c => contact_to_str c ++ "\n").foldr (· ++ ·) "") ∧
    (∀ c : ContactInfo, optNodeBool c.major = false → optNodeBool c.org = false →
      contact_to_str c = formatPyOpt c.name ++ " \n\temail: " ++ c.email) ∧
    (∀ c : ContactInfo, optNodeBool c.major = true → optNodeBool c.org = false →
      contact_to_str c =
        formatPyOpt c.name ++ " \n\temail: " ++ c.email ++ "\n\tmajor: " ++ formatPyNode c.major) ∧
    (∀ c : ContactInfo, optNodeBool c.major = false → optNodeBool c.org = true →
      contact_to_str c =
        formatPyOpt c.name ++ " \n\temail: " ++ c.email ++ "\n\torg: " ++ formatPyNode c.org) ∧
    (∀ c : ContactInfo, optNodeBool c.major = true → optNodeBool c.org = true →
      contact_to_str c =
        formatPyOpt c.name ++ " \n\temail: " ++ c.email ++ "\n\tmajor: " ++ formatPyNode c.major
          ++ "\n\torg: " ++ formatPyNode c.org) := by
  refine ⟨rfl, rfl, ?_, ?_, ?_, ?_, ?_⟩
  · intro l
    induction l with
    | nil => rfl
    | cons c rest ih => simp [writeLoop, ih]
  · intro c h1 h2
    simp [contact_to_str, h1, h2]
  · intro c h1 h2
    simp [contact_to_str, h1, h2]
  · intro c h1 h2
    simp [contact_to_str, h1, h2]
  · intro c h1 h2
    simp [contact_to_str, h1, h2]

theorem claim_C7_witness :
    (optNodeBool janeContact.major = true ∧ optNodeBool janeContact.org = false) ∧
    contact_to_str janeContact =
      formatPyOpt janeContact.name ++ " \n\temail: " ++ janeContact.email ++ "\n\tmajor: "
        ++ formatPyNode janeContact.major ∧
    (optNodeBool carlaContact.major = false ∧ optNodeBool carlaContact.org = true) ∧
    contact_to_str carlaContact =
      formatPyOpt carlaContact.name ++ " \n\temail: " ++ carlaContact.email ++ "\n\torg: "
        ++ formatPyNode carlaContact.org :=
  ⟨⟨rfl, rfl⟩, claim_C7.2.2.2.2.1 janeContact rfl rfl, ⟨rfl, rfl⟩,
    claim_C7.2.2.2.2.2.1 carlaContact rfl rfl⟩

theorem batchNames_cons_none {line : String} (h : pySplit (pyStrip line) = [])
    (rest : List String) : batchNames (line :: rest) = batchNames rest := by
  simp [batchNames, List.filterMap_cons, h, tokenizeName]

theorem batchNames_cons_some {line : String} {parts : List String} {p : String × String}
    (h : pySplit (pyStrip line) = parts) (hp : tokenizeName parts = some p)
    (rest : List String) : batchNames (line :: rest) = p :: batchNames rest := by
  simp [batchNames, List.filterMap_cons, h, hp]

theorem pyStrip_all_space {line : String} (h : ∀ ch ∈ line.toList, isPySpace ch = true) :
    pyStrip line = "" := by
  unfold pyStrip
  rw [List.dropWhile_eq_nil_iff.mpr h]
  rfl

/-- Claim C6: a single-token name yields the surname-only pair, a
multi-token name yields (first token, last token), the spec's three
examples evaluate as stated, the same tokenization applies to batch lines,
and blank or token-free lines are ignored. -/
theorem claim_C6 :
    (∀ s t : String, pySplit s = [t] → parseName s = some ("", t)) ∧
    (∀ (s p q : String) (parts : List String), pySplit s = p :: q :: parts →
      parseName s = some (p, (q :: parts).getLast (List.cons_ne_nil q parts))) ∧
    parseName "Jane Doe" = some ("Jane", "Doe") ∧
    parseName "Doe" = some ("", "Doe") ∧
    parseName "Jane Middle Doe" = some ("Jane", "Doe") ∧
    (∀ (line : String) (rest : List String), pySplit (pyStrip line) = [] →
      batchNames (line :: rest) = batchNames rest) ∧
    (∀ rest : List String, batchNames ("" :: rest) = batchNames rest) ∧
    (∀ (line t : String) (rest : List String), pySplit (pyStrip line) = [t] →
      batchNames (line :: rest) = ("", t) :: batchNames rest) ∧
    (∀ (line p q : String) (parts rest : List String),
      pySplit (pyStrip line) = p :: q :: parts →
      batchNames (line :: rest) =
        (p, (q :: parts).getLast (List.cons_ne_nil q parts)) :: batchNames rest) := by
  refine ⟨?_, ?_, rfl, rfl, rfl, ?_, ?_, ?_, ?_⟩
  · intro s t h
    unfold parseName
    rw [h]
    rfl
  · intro s p q parts h
    unfold parseName
    rw [h]
    rfl
  · intro line rest h
    exact batchNames_cons_none h rest
  · intro rest
    exact @batchNames_cons_none "" rfl rest
  · intro line t rest h
    exact batchNames_cons_some h rfl rest
  · intro line p q parts rest h
    exact batchNames_cons_some h rfl rest

theorem claim_C6_witness :
    pySplit "Doe" = ["Doe"] ∧ parseName "Doe" = some ("", "Doe") ∧
    pySplit "Jane Middle Doe" = ["Jane", "Middle", "Doe"] ∧
    parseName "Jane Middle Doe" =
      some ("Jane", (["Middle", "Doe"] : List String).getLast (List.cons_ne_nil "Middle" ["Doe"])) ∧
    batchNames ["  ", "Ann Lee"] = batchNames ["Ann Lee"] :=
  ⟨rfl, claim_C6.1 "Doe" "Doe" rfl, rfl,
    claim_C6.2.1 "Jane Middle Doe" "Jane" "Middle" ["Doe"] rfl,
    claim_C6.2.2.2.2.2.1 "  " ["Ann Lee"] rfl⟩

theorem do_request_all_posts (net : FormData → HttpResponse) (fn ln : String) :
    (do_request net fn ln "" ALL).2 = [⟨ALL, fn, ln, ""⟩] := by
  unfold do_request
  rw [if_neg (by decide)]
  simp only []
  split <;> rfl

theorem mainLoop_posts_sub (env : Env) : ∀ ns : List (String × String),
    ∃ rest, ns.map (fun n => (⟨ALL, n.1, n.2, ""⟩ : FormData)) = (mainLoop env ns).posts ++ rest := by
  intro ns
  induction ns with
  | nil => exact ⟨[], rfl⟩
  | cons n rest ih =>
    rcases hdr : do_request env.net n.1 n.2 "" ALL with ⟨r, tr⟩
    have htr : tr = [⟨ALL, n.1, n.2, ""⟩] := by
      rw [← do_request_all_posts env.net n.1 n.2, hdr]
    subst htr
    cases r with
    | error e =>
      refine ⟨rest.map fun n => ⟨ALL, n.1, n.2, ""⟩, ?_⟩
      simp [mainLoop, hdr]
    | ok data =>
      cases hp : parse_emails (env.soup data) with
      | error e =>
        refine ⟨rest.map fun n => ⟨ALL, n.1, n.2, ""⟩, ?_⟩
        simp [mainLoop, hdr, hp]
      | ok info =>
        obtain ⟨tail, htail⟩ := ih
        refine ⟨tail, ?_⟩
        simp [mainLoop, hdr, hp, htail]

theorem mainLoop_posts_complete (env : Env) : ∀ ns : List (String × String),
    (mainLoop env ns).result = .ok () →
    (mainLoop env ns).posts = ns.map fun n => ⟨ALL, n.1, n.2, ""⟩ := by
  intro ns
  induction ns with
  | nil => intro _; rfl
  | cons n rest ih =>
    intro h
    rcases hdr : do_request env.net n.1 n.2 "" ALL with ⟨r, tr⟩
    have htr : tr = [⟨ALL, n.1, n.2, ""⟩] := by
      rw [← do_request_all_posts env.net n.1 n.2, hdr]
    subst htr
    cases r with
    | error e => simp [mainLoop, hdr] at h
    | ok data =>
      cases hp : parse_emails (env.soup data) with
      | error e => simp [mainLoop, hdr, hp] at h
      | ok info =>
        simp only [mainLoop, hdr, hp] at h ⊢
        rw [ih h]
        rfl

theorem mainLoop_posts_filter (env : Env) : ∀ ns : List (String × String),
    ((mainLoop env ns).posts).map FormData.filter =
      List.replicate (mainLoop env ns).posts.length ALL := by
  intro ns
  induction ns with
  | nil => rfl
  | cons n rest ih =>
    rcases hdr : do_request env.net n.1 n.2 "" ALL with ⟨r, tr⟩
    have htr : tr = [⟨ALL, n.1, n.2, ""⟩] := by
      rw [← do_request_all_posts env.net n.1 n.2, hdr]
    subst htr
    cases r with
    | error e => simp [mainLoop, hdr, List.replicate]
    | ok data =>
      cases hp : parse_emails (env.soup data) with
      | error e => simp [mainLoop, hdr, hp, List.replicate]
      | ok info => simp [mainLoop, hdr, hp, ih, List.replicate_succ]

/-- Claim C9: with both a name and a batch file the resolved query list is
the name pair followed by the batch pairs in file order, the online loop
issues its POSTs in exactly that list order (the performed POSTs are an
order-preserving initial segment, and the full list when the run
completes), and whitespace-only batch lines are ignored. -/
theorem claim_C9 :
    (∀ (s t : String) (lines : List String) (r : ℚ) (p : String × String),
      s ≠ "" → parseName s = some p →
      resolveNames ⟨some s, t, some lines, r⟩ = .ok (p :: batchNames lines)) ∧
    (∀ (env : Env) (ns : List (String × String)),
      ∃ rest, ns.map (fun n => (⟨ALL, n.1, n.2, ""⟩ : FormData)) =
        (mainLoop env ns).posts ++ rest) ∧
    (∀ (env : Env) (ns : List (String × String)),
      (mainLoop env ns).result = .ok () →
      (mainLoop env ns).posts = ns.map fun n => ⟨ALL, n.1, n.2, ""⟩) ∧
    (∀ (line : String) (rest : List String), (∀ ch ∈ line.toList, isPySpace ch = true) →
      batchNames (line :: rest) = batchNames rest) := by
  refine ⟨?_, mainLoop_posts_sub, mainLoop_posts_complete, ?_⟩
  · intro s t lines r p hs hp
    simp [resolveNames, hs, hp]
  · intro line rest h
    exact batchNames_cons_none (by rw [pyStrip_all_space h]; rfl) rest

theorem claim_C9_witness :
    resolveNames ⟨some "Jane Doe", ALL, some ["Ann Lee", " ", "Solo"], 5⟩ =
      .ok (("Jane", "Doe") :: batchNames ["Ann Lee", " ", "Solo"]) ∧
    (mainLoop env200 [("Jane", "Doe")]).result = .ok () ∧
    (mainLoop env200 [("Jane", "Doe")]).posts =
      [(⟨ALL, "Jane", "Doe", ""⟩ : FormData)] ∧
    batchNames [" ", "Solo"] = batchNames ["Solo"] := by
  refine ⟨claim_C9.1 "Jane Doe" ALL ["Ann Lee", " ", "Solo"] 5 ("Jane", "Doe")
      (by decide) rfl, rfl, ?_, ?_⟩
  · exact claim_C9.2.2.1 env200 [("Jane", "Doe")] rfl
  · exact claim_C9.2.2.2 " " ["Solo"] (by decide)

/-- Claim C1 (code evaluation): `--type student` resolves the single name
Jane Doe, yet every POST the online loop performs carries filter `all`
(the loop calls do_request without the category argument), and `all` is
not the requested `student`. -/
theorem claim_C1 :
    resolveNames bugArgs = .ok [("Jane", "Doe")] ∧
    bugArgs.type = STUDENT ∧
    ALL ≠ STUDENT ∧
    (∀ (env : Env) (ns : List (String × String)),
      ((mainLoop env ns).posts).map FormData.filter =
        List.replicate (mainLoop env ns).posts.length ALL) := by
  exact ⟨rfl, rfl, by decide, mainLoop_posts_filter⟩

theorem pacerStep_no_wait (R : ℚ) (st : PacerState) (a b : ℚ)
    (h : st.start + R - (st.clock + a) ≤ 0) :
    pacerStep R st a b = (⟨st.clock + a + b, st.clock + a + b⟩, 0) := by
  unfold pacerStep
  simp only []
  rw [if_neg (by linarith)]
  simp

theorem pacerRun_chain (R : ℚ) : ∀ (gaps : List (ℚ × ℚ)) (s : ℚ),
    (∀ g ∈ gaps, 0 ≤ g.1 ∧ 0 ≤ g.2) →
    List.Chain' (fun a b : ℚ => a + R ≤ b) (s :: (pacerRun R ⟨s, s⟩ gaps).map Prod.fst) := by
  intro gaps
  induction gaps with
  | nil => intro s _; simp [pacerRun]
  | cons g rest ih =>
    intro s hg
    obtain ⟨hg1, hg2⟩ := hg g (List.mem_cons_self _ _)
    simp only [pacerRun, pacerStep, List.map_cons]
    rw [List.chain'_cons]
    constructor
    · dsimp only
      split_ifs with hd
      · linarith
      · push_neg at hd
        linarith
    · dsimp only
      exact ih _ (fun g' hg' => hg g' (List.mem_cons_of_mem _ hg'))

/-- Claim C5: over an abstract monotone clock where sleep advances time by
the requested amount, every two consecutive query start samples are at
least the ratelimit apart, and the first query of the run sleeps zero. -/
theorem claim_C5 : ∀ (R t0 : ℚ) (gaps : List (ℚ × ℚ)),
    (∀ g ∈ gaps, 0 ≤ g.1 ∧ 0 ≤ g.2) →
    List.Chain' (fun a b : ℚ => a + R ≤ b) ((pacerRun R (pacerInit R t0) gaps).map Prod.fst) ∧
    (∀ p ∈ (pacerRun R (pacerInit R t0) gaps).head?, p.2 = 0) := by
  intro R t0 gaps hg
  cases gaps with
  | nil => simp [pacerRun]
  | cons g rest =>
    obtain ⟨hg1, hg2⟩ := hg g (List.mem_cons_self _ _)
    have h0 : (pacerInit R t0).start + R - ((pacerInit R t0).clock + g.1) ≤ 0 := by
      simp [pacerInit]
      linarith
    have hstep := pacerStep_no_wait R (pacerInit R t0) g.1 g.2 h0
    constructor
    · simp only [pacerRun, hstep, List.map_cons]
      have hchain := pacerRun_chain R rest ((pacerInit R t0).clock + g.1 + g.2)
        (fun g' hg' => hg g' (List.mem_cons_of_mem _ hg'))
      exact hchain
    · simp only [pacerRun, hstep]
      intro p hp
      simp at hp
      rw [← hp]

theorem claim_C5_witness :
    (∀ g ∈ [((1:ℚ), (0:ℚ)), (0, 1), (1, 1)], 0 ≤ g.1 ∧ 0 ≤ g.2) ∧
    (List.Chain' (fun a b : ℚ => a + 5 ≤ b)
      ((pacerRun 5 (pacerInit 5 100) [((1:ℚ), (0:ℚ)), (0, 1), (1, 1)]).map Prod.fst) ∧
    ∀ p ∈ (pacerRun 5 (pacerInit 5 100) [((1:ℚ), (0:ℚ)), (0, 1), (1, 1)]).head?, p.2 = 0) :=
  ⟨by simp, claim_C5 5 100 [(1, 0), (0, 1), (1, 1)] (by simp)⟩
